import Mathlib

/-!
Shallow embedding of the core of `SDV_new2.py` (single-file SDV demo):
the drive-step state transition `simulate_drive_step`, the derived ECU
snapshot `compute_ecu_snapshot`, the telemetry generator
`TelemetrySource.simulate` and CSV ingestion `read_can_csv`, the battery
risk scorer `PredictiveMaintenance.compute_risk_score`, and the toy
ECU worker `ecu_process`.  Python floats are modelled as rationals (ℚ),
Python ints as ℤ, `int(x)` as truncation toward zero, and `round(x, d)`
as round-half-to-even at `d` decimal places.
-/

namespace SDV

/-- Python `round` to an integer: round half to even (banker's rounding). -/
def halfEvenRound (q : ℚ) : ℤ :=
  if q - ⌊q⌋ = 1/2 then (if 2 ∣ ⌊q⌋ then ⌊q⌋ else ⌊q⌋ + 1) else round q

/-- Python `int(x)` on a float: truncation toward zero. -/
def pyTrunc (q : ℚ) : ℤ :=
  if 0 ≤ q then ⌊q⌋ else -⌊-q⌋

/-- Python `round(x, d)`: round half to even at `d` decimal places. -/
def roundTo (d : ℕ) (q : ℚ) : ℚ :=
  (halfEvenRound (q * 10 ^ d) : ℚ) / 10 ^ d

/-- ASCII lower-casing on character codes: `A`-`Z` (65-90) shift to `a`-`z`. -/
def lowerNat (n : ℕ) : ℕ :=
  if 65 ≤ n ∧ n ≤ 90 then n + 32 else n

/-- ASCII upper-casing on character codes: `a`-`z` (97-122) shift to `A`-`Z`. -/
def upperNat (n : ℕ) : ℕ :=
  if 97 ≤ n ∧ n ≤ 122 then n - 32 else n

/-- Python `str.capitalize()` for ASCII strings: first character upper-cased,
the rest lower-cased. -/
def pyCapitalize (s : String) : String :=
  match s.data with
  | [] => ""
  | c :: cs =>
    String.mk (Char.ofNat (upperNat c.toNat) ::
               cs.map (fun d => Char.ofNat (lowerNat d.toNat)))

/-- Case-folded character-code content of a string; two strings are equal
up to ASCII case exactly when their `caseFold` images are equal. -/
def caseFold (s : String) : List ℕ :=
  s.data.map (fun c => lowerNat c.toNat)

/-- The mutable per-session drive state `st.session_state["drive"]`:
keys `speed`, `soc`, `temperature`, `cycles`, `mode`. -/
structure DriveState where
  speed : ℚ
  soc : ℚ
  temperature : ℚ
  cycles : ℤ
  mode : String
deriving DecidableEq

/-- Default drive state used by `s.get(...)` in `simulate_drive_step` and by
`compute_ecu_snapshot`: speed 0, soc 95, temperature 30, cycles 0, Normal. -/
def initDrive : DriveState :=
  { speed := 0, soc := 95, temperature := 30, cycles := 0, mode := "Normal" }

/-- One row appended to `state["drive_log"]` by `simulate_drive_step`. -/
structure DriveRow where
  timestamp : ℚ
  speed : ℚ
  rpm : ℤ
  current : ℚ
  temperature : ℚ
  soc : ℚ
  cycles : ℤ
  throttle : ℚ
  brake : ℚ
  mode : String
deriving DecidableEq

/-- One call's inputs to `simulate_drive_step`; `now` is the wall-clock
timestamp `datetime.now()` observed during the call. -/
structure DriveInput where
  now : ℚ
  throttle : ℚ
  brake : ℚ
  dt : ℚ
  mode : String
deriving DecidableEq

/-- Mode multiplier table of `simulate_drive_step`, keyed by the already
capitalized mode string: (acceleration multiplier, cur_factor, regen_factor).
The final branch is the `else: # Normal` default. -/
def modeFactors (capMode : String) : ℚ × ℚ × ℚ :=
  if capMode = "Eco" then (0.7, 0.7, 1.1)
  else if capMode = "Sport" then (1.4, 1.3, 0.9)
  else if capMode = "Snow" then (0.6, 0.8, 1.0)
  else if capMode = "Regen" then (0.9, 0.9, 1.4)
  else (1.0, 1.0, 1.0)

/-- The resolved mode of a drive step: `mode = mode.capitalize()`. -/
def capMode (inp : DriveInput) : String := pyCapitalize inp.mode

/-- Mode-scaled acceleration: `accel = (throttle_pct / 100.0) * 3.5`,
then `accel *= <mode multiplier>`. -/
def stepAccel (inp : DriveInput) : ℚ :=
  inp.throttle / 100 * 3.5 * (modeFactors (capMode inp)).1

/-- Deceleration: `decel = (brake_pct / 100.0) * 6.0 + 0.1`. -/
def stepDecel (inp : DriveInput) : ℚ :=
  inp.brake / 100 * 6.0 + 0.1

/-- Speed update in km/h:
`speed_ms = max(0.0, speed / 3.6 + (accel - decel) * dt); speed = speed_ms * 3.6`. -/
def stepSpeed (d : DriveState) (inp : DriveInput) : ℚ :=
  max 0 (d.speed / 3.6 + (stepAccel inp - stepDecel inp) * inp.dt) * 3.6

/-- `rpm = min(7000, 800 + (speed * 40) * (1 + throttle_pct / 100.0))`,
from the already updated speed. -/
def stepRpm (d : DriveState) (inp : DriveInput) : ℚ :=
  min 7000 (800 + stepSpeed d inp * 40 * (1 + inp.throttle / 100))

/-- `current = ((throttle/100)*60 + max(0, speed/20)*2) * cur_factor`. -/
def stepCurrent (d : DriveState) (inp : DriveInput) : ℚ :=
  (inp.throttle / 100 * 60.0 + max 0 (stepSpeed d inp / 20.0) * 2.0) *
    (modeFactors (capMode inp)).2.1

/-- `soc_delta = current * dt * 0.0005`, scaled by `0.7 / regen_factor` when
mode is Regen or when coasting/braking (throttle < 20 and brake > 10). -/
def stepSocDelta (d : DriveState) (inp : DriveInput) : ℚ :=
  if capMode inp = "Regen" ∨ (inp.throttle < 20 ∧ inp.brake > 10)
  then stepCurrent d inp * inp.dt * 0.0005 * (0.7 / (modeFactors (capMode inp)).2.2)
  else stepCurrent d inp * inp.dt * 0.0005

/-- `soc = max(5.0, soc - soc_delta)`. -/
def stepSoc (d : DriveState) (inp : DriveInput) : ℚ :=
  max 5.0 (d.soc - stepSocDelta d inp)

/-- `temp = temp + current*0.001*dt + (throttle/100)*0.01`. -/
def stepTemp (d : DriveState) (inp : DriveInput) : ℚ :=
  d.temperature + stepCurrent d inp * 0.001 * inp.dt + inp.throttle / 100 * 0.01

/-- `cycles = min(1000, cycles + int(abs(current) * dt / 100.0))`. -/
def stepCycles (d : DriveState) (inp : DriveInput) : ℤ :=
  min 1000 (d.cycles + pyTrunc (|stepCurrent d inp| * inp.dt / 100.0))

/-- Embedding of `simulate_drive_step` (SDV_new2.py lines 206-267): returns
the updated drive state (the `s.update(...)`) and the appended log row. -/
def simulate_drive_step (d : DriveState) (inp : DriveInput) : DriveState × DriveRow :=
  ({ speed := stepSpeed d inp, soc := stepSoc d inp, temperature := stepTemp d inp,
     cycles := stepCycles d inp, mode := capMode inp },
   { timestamp := inp.now, speed := roundTo 2 (stepSpeed d inp),
     rpm := pyTrunc (stepRpm d inp), current := roundTo 3 (stepCurrent d inp),
     temperature := roundTo 2 (stepTemp d inp), soc := roundTo 3 (stepSoc d inp),
     cycles := stepCycles d inp, throttle := inp.throttle,
     brake := inp.brake, mode := capMode inp })

/-- State part of one drive step. -/
def driveStep (d : DriveState) (inp : DriveInput) : DriveState :=
  (simulate_drive_step d inp).1

/-- The bounded ring append at the end of `simulate_drive_step`:
`log.append(row); if len(log) > 2000: del log[:len(log) - 2000]`. -/
def pushLog (log : List DriveRow) (r : DriveRow) : List DriveRow :=
  let l := log ++ [r]
  if 2000 < l.length then l.drop (l.length - 2000) else l

/-- The last `n` elements of a list, in order. -/
def takeLast (n : ℕ) (l : List DriveRow) : List DriveRow :=
  l.drop (l.length - n)

/-- A session: the shared drive state plus the bounded drive log. -/
structure Session where
  drive : DriveState
  log : List DriveRow

/-- One full `simulate_drive_step` call on a session: state update plus
ring-log append. -/
def sessionStep (s : Session) (inp : DriveInput) : Session :=
  { drive := (simulate_drive_step s.drive inp).1,
    log := pushLog s.log (simulate_drive_step s.drive inp).2 }

/-- A sequence of `simulate_drive_step` calls on one session. -/
def runDrive (s : Session) (inps : List DriveInput) : Session :=
  inps.foldl sessionStep s

/-- The rows appended by a sequence of drive steps, in append order. -/
def driveRows (d : DriveState) : List DriveInput → List DriveRow
  | [] => []
  | i :: is => (simulate_drive_step d i).2 :: driveRows (simulate_drive_step d i).1 is

/-- Body control module view of `compute_ecu_snapshot`. -/
structure BcmView where
  headlights_on : Bool
  doors_locked : Bool
  cabin_temp : ℚ
deriving DecidableEq

/-- Battery management view of `compute_ecu_snapshot`. -/
structure BmsView where
  soc : ℚ
  temp : ℚ
  cycles : ℤ
  soh : ℚ
  status : String
deriving DecidableEq

/-- Telematics view of `compute_ecu_snapshot`. -/
structure TcuView where
  network_status : String
  signal_strength : ℤ
  gps_fix : String
deriving DecidableEq

/-- Driver-assistance view of `compute_ecu_snapshot`. -/
structure AdasView where
  lane_offset : ℚ
  lane_departure : Bool
  obstacle_distance : ℚ
  collision_warn : Bool
deriving DecidableEq

/-- Full derived ECU snapshot. -/
structure EcuSnapshot where
  bcm : BcmView
  bms : BmsView
  tcu : TcuView
  adas : AdasView
deriving DecidableEq

/-- Embedding of `compute_ecu_snapshot` (SDV_new2.py lines 272-304).  The
snapshot is a pure function of the drive state and the drive-log length
`idx`.  The transcendental `np.sin(idx / 15.0)` has no computable exact
rational counterpart, so the sine evaluation is abstracted into the
parameter `sin15`, with `sin15 idx` standing for `sin(idx / 15.0)`; no
other field depends on it. -/
def compute_ecu_snapshot (sin15 : ℕ → ℚ) (drive : DriveState) (idx : ℕ) :
    EcuSnapshot :=
  let speed := drive.speed
  let bcm : BcmView :=
    { headlights_on := decide (speed < 5) || decide (idx % 20 ≥ 10),
      doors_locked := decide (idx % 7 ≠ 0),
      cabin_temp := 24 + max 0 ((drive.temperature - 30) * 0.1) }
  let soh := max 60.0 (100.0 - drive.cycles * 0.02 - max 0 (drive.temperature - 35) * 0.1)
  let bms : BmsView :=
    { soc := drive.soc, temp := drive.temperature, cycles := drive.cycles,
      soh := soh,
      status := if soh > 80 then "OK" else (if soh > 70 then "Monitor" else "Degraded") }
  let tcu : TcuView :=
    { network_status := if speed < 80 then "Online" else "Offline",
      signal_strength := max 1 (5 - pyTrunc (|speed - 60| / 60 * 3)),
      gps_fix := if speed > 1 then "3D" else "2D/Static" }
  let lane_offset := sin15 idx * 0.4
  let adas : AdasView :=
    { lane_offset := lane_offset,
      lane_departure := decide (|lane_offset| > 0.3),
      obstacle_distance := max 5.0 (80.0 - speed * 0.5),
      collision_warn := decide (speed > 40.0) && decide (max 5.0 (80.0 - speed * 0.5) < 20.0) }
  { bcm := bcm, bms := bms, tcu := tcu, adas := adas }

/-- One telemetry sample: one row of the DataFrame built by
`TelemetrySource.simulate` / consumed by `compute_risk_score`.
Timestamps are in seconds. -/
structure TelemetrySample where
  timestamp : ℚ
  voltage : ℚ
  current : ℚ
  temperature : ℚ
  soc : ℚ
  cycles : ℤ
deriving DecidableEq

/-- All-zero sample, used only as the (never reached) default of
head / last lookups on lists known to be non-empty. -/
def zeroSample : TelemetrySample :=
  { timestamp := 0, voltage := 0, current := 0, temperature := 0, soc := 0, cycles := 0 }

/-- numpy `clip(x, lo, hi)` = `min(max(x, lo), hi)`. -/
def clipQ (x lo hi : ℚ) : ℚ := min (max x lo) hi

/-- numpy `clip` on integers. -/
def clipZ (x lo hi : ℤ) : ℤ := min (max x lo) hi

/-- Raw current sample `i` of `TelemetrySource.simulate`:
`np.clip(np.random.normal(5, 2, periods), -50, 100)[i]`.  The pseudo-random
draws of the (seeded) numpy generator are abstracted into the stream
`draws`; a fixed seed fixes the whole stream.  Stream layout follows the
order the source consumes randomness: `noise_v` at `0..p-1`, the single
`np.random.rand()` at `p`, `temp_noise` at `p+1..2p`, and the normal draws
behind `current` at `2p+1..3p`. -/
def currentAt (draws : ℕ → ℚ) (p i : ℕ) : ℚ :=
  clipQ (draws (2 * p + 1 + i)) (-50) 100

/-- Cumulative sum of `np.abs(current)` up to and including index `i`. -/
def cumAbsCurrent (draws : ℕ → ℚ) (p i : ℕ) : ℚ :=
  ((List.range (i + 1)).map (fun j => |currentAt draws p j|)).sum

/-- Clipped integer cycle count at index `i`:
`np.clip((np.cumsum(np.abs(current)) / 1000).astype(int), 0, 200)[i]`. -/
def cyclesAt (draws : ℕ → ℚ) (p i : ℕ) : ℤ :=
  clipZ (pyTrunc (cumAbsCurrent draws p i / 1000)) 0 200

/-- Embedding of `TelemetrySource.simulate` (SDV_new2.py lines 121-151).
`now` is the wall-clock `datetime.now()` at the call, in seconds; sample
timestamps step back `freq` minutes (`60 * freq` seconds) apart and end at
`now`.  `draws` abstracts the seeded numpy random stream (see `currentAt`).
`linspace(a, b, p)` at index `i` is `a + (b - a) * i / (p - 1)`. -/
def simulate (hours freq : ℚ) (now : ℚ) (draws : ℕ → ℚ) : List TelemetrySample :=
  let p := (max 2 (pyTrunc (hours * 60 / freq))).toNat
  (List.range p).map (fun (i : ℕ) =>
    let drift := (-5 : ℚ) * (i : ℚ) / ((p - 1 : ℕ) : ℚ)
    let temp_trend := (8 : ℚ) * (i : ℚ) / ((p - 1 : ℕ) : ℚ) * draws p
    let cyc := cyclesAt draws p i
    { timestamp := now - 60 * freq * ((p - 1 - i : ℕ) : ℚ),
      voltage := 400.0 + drift + draws i - cyc * 0.01,
      current := currentAt draws p i,
      temperature := 30.0 + temp_trend + draws (p + 1 + i) + cyc * 0.02,
      soc := clipQ (100 - cumAbsCurrent draws p i * 0.001) 10 100,
      cycles := cyc })

/-- Value fields of a sample: everything except the timestamp. -/
def valueFields (s : TelemetrySample) : ℚ × ℚ × ℚ × ℚ × ℤ :=
  (s.voltage, s.current, s.temperature, s.soc, s.cycles)

/-- A tabular frame as seen by `read_can_csv`: the parsed column names and,
for the timestamp column, the cell-by-cell result of `pd.to_datetime`
(`some t` if the cell parses to epoch-second `t`, `none` if unparseable). -/
structure CsvFrame where
  cols : List String
  tsCells : List (Option ℚ)
deriving DecidableEq

/-- Embedding of `TelemetrySource.read_can_csv` (SDV_new2.py lines 153-156):
`df = pd.read_csv(fileobj); df["timestamp"] = pd.to_datetime(df["timestamp"])`.
Accessing a missing `timestamp` column raises (KeyError), and `pd.to_datetime`
raises on an unparseable cell; both surface as `.error`.  No other column is
accessed or checked. -/
def read_can_csv (f : CsvFrame) : Except String (List ℚ) :=
  if "timestamp" ∈ f.cols then
    if f.tsCells.all Option.isSome then
      .ok (f.tsCells.map (fun c => c.getD 0))
    else .error "FormatError: unparseable timestamp"
  else .error "FormatError: missing timestamp column"

/-- The `df.tail(12)` window of `compute_risk_score`. -/
def tail12 (l : List TelemetrySample) : List TelemetrySample :=
  l.drop (l.length - 12)

/-- Integer epoch seconds of a timestamp, as `compute_risk_score` sees them:
`recent["timestamp"].astype("int64") // 1_000_000_000` floor-divides the
nanosecond datetimes to whole seconds. -/
def tsSec (s : TelemetrySample) : ℤ := ⌊s.timestamp⌋

/-- Elapsed-hours denominator of `compute_risk_score`, over the integer
seconds: `dt = (times[-1] - times[0]) / 3600.0 if len(times) >= 2 else 1.0`. -/
def dtHours (recent : List TelemetrySample) : ℚ :=
  if 2 ≤ recent.length then
    ((tsSec (recent.getLast?.getD zeroSample)
      - tsSec (recent.head?.getD zeroSample) : ℤ) : ℚ) / 3600
  else 1

/-- Voltage slope of the window: `(volts[-1] - volts[0]) / dt`. -/
def voltSlope (recent : List TelemetrySample) : ℚ :=
  ((recent.getLast?.getD zeroSample).voltage
    - (recent.head?.getD zeroSample).voltage) / dtHours recent

/-- `voltage_drop_rate = -slope if slope < 0 else 0.0`. -/
def voltageDropRate (recent : List TelemetrySample) : ℚ :=
  if voltSlope recent < 0 then -voltSlope recent else 0

/-- The breakdown dict returned by `compute_risk_score`. -/
structure RiskBreakdown where
  voltage_drop_rate_v_per_hr : ℚ
  temp_mean : ℚ
  cycles : ℤ
  v_score : ℚ
  t_score : ℚ
  c_score : ℚ
deriving DecidableEq

/-- Embedding of `PredictiveMaintenance.compute_risk_score` (SDV_new2.py
lines 174-201).  Input `none` models `df is None`; an empty list models
`df.empty`.  Both return the `None` sentinel.  Otherwise returns the
rounded integer risk and the explanation breakdown. -/
def compute_risk_score (input : Option (List TelemetrySample)) :
    Option (ℤ × RiskBreakdown) :=
  match input with
  | none => none
  | some df =>
    if df = [] then none else
    let recent := tail12 df
    let drop_rate := voltageDropRate recent
    let temp_mean := ((recent.map (·.temperature)).sum) / (recent.length : ℚ)
    let cycles := (recent.map (·.cycles)).foldl max ((recent.head?.getD zeroSample).cycles)
    let v_score := min (drop_rate * 40.0) 40.0
    let t_score := min (max ((temp_mean - 25.0) / (60.0 - 25.0) * 35.0) 0.0) 35.0
    let c_score := min ((cycles : ℚ) / 200.0 * 25.0) 25.0
    let risk := min (max (v_score + t_score + c_score) 0.0) 100.0
    some (halfEvenRound risk,
      { voltage_drop_rate_v_per_hr := roundTo 4 drop_rate,
        temp_mean := roundTo 2 temp_mean,
        cycles := cycles,
        v_score := roundTo 2 v_score,
        t_score := roundTo 2 t_score,
        c_score := roundTo 2 c_score })

/-- One iteration of the `ecu_process` worker loop (SDV_new2.py lines
468-483) on its private speed, for a `{throttle, brake}` command:
the same kinematics as the main model with a fixed 0.1-second step. -/
def ecuStep (speed throttle brake : ℚ) : ℚ :=
  let accel := throttle / 100 * 3.5
  let decel := brake / 100 * 6.0 + 0.1
  (max 0 (speed / 3.6 + (accel - decel) * 0.1)) * 3.6

/-- Private speed of the `ecu_process` worker after `n` commands
`{throttle: 100, brake: 0}`, starting from rest. -/
def ecuSpeeds : ℕ → ℚ
  | 0 => 0
  | n + 1 => ecuStep (ecuSpeeds n) 100 0

/-- Speed reported on the response queue after the `n`-th full-throttle
command (0-based): `round(speed, 2)`. -/
def ecuReported (n : ℕ) : ℚ := roundTo 2 (ecuSpeeds (n + 1))

/-- The clamp invariant on the drive state: speed ≥ 0, state of charge in
[5, 100], cycle count in [0, 1000]. -/
def DriveInv (d : DriveState) : Prop :=
  0 ≤ d.speed ∧ 5 ≤ d.soc ∧ d.soc ≤ 100 ∧ 0 ≤ d.cycles ∧ d.cycles ≤ 1000

instance (d : DriveState) : Decidable (DriveInv d) := by
  unfold DriveInv; infer_instance

/-- Input ranges of one drive-step call: throttle and brake percentages in
[0, 100] and a positive step duration. -/
def ValidInput (i : DriveInput) : Prop :=
  0 ≤ i.throttle ∧ i.throttle ≤ 100 ∧ 0 ≤ i.brake ∧ i.brake ≤ 100 ∧ 0 < i.dt

instance (i : DriveInput) : Decidable (ValidInput i) := by
  unfold ValidInput; infer_instance

/-- Chronologically strictly increasing timestamps, at the whole-second
granularity the risk scorer works with. -/
def ChronInc (l : List TelemetrySample) : Prop :=
  l.Pairwise (fun a b => tsSec a < tsSec b)

instance (l : List TelemetrySample) : Decidable (ChronInc l) := by
  unfold ChronInc; infer_instance

/-- Modelled from the spec claim C8 wording: signal strength with `round`
as rounding to the nearest integer, `max(1, 5 − round(|speed − 60|/60 × 3))`;
to be compared with the source's `int(...)` truncation. -/
def signalStrengthClaim (speed : ℚ) : ℤ :=
  max 1 (5 - round (|speed - 60| / 60 * 3))

/-! Helper lemmas shared by the claim theorems. -/

lemma abs_halfEvenRound_sub_le (q : ℚ) : |((halfEvenRound q : ℤ) : ℚ) - q| ≤ 1/2 := by
  unfold halfEvenRound
  split_ifs with h1 h2
  · rw [abs_le]; constructor <;> linarith
  · rw [abs_le]; push_cast; constructor <;> linarith
  · rw [abs_sub_comm]; exact abs_sub_round q

lemma halfEvenRound_bounds {q : ℚ} {a b : ℤ} (ha : (a : ℚ) ≤ q) (hb : q ≤ (b : ℚ)) :
    a ≤ halfEvenRound q ∧ halfEvenRound q ≤ b := by
  have h := abs_le.mp (abs_halfEvenRound_sub_le q)
  constructor
  · have hlt : ((a - 1 : ℤ) : ℚ) < ((halfEvenRound q : ℤ) : ℚ) := by push_cast; linarith [h.1]
    have h2 : (a - 1 : ℤ) < halfEvenRound q := by exact_mod_cast hlt
    omega
  · have hlt : ((halfEvenRound q : ℤ) : ℚ) < ((b + 1 : ℤ) : ℚ) := by push_cast; linarith [h.2]
    have h2 : halfEvenRound q < b + 1 := by exact_mod_cast hlt
    omega

lemma pyTrunc_of_nonneg {q : ℚ} (h : 0 ≤ q) : pyTrunc q = ⌊q⌋ := by
  unfold pyTrunc; rw [if_pos h]

lemma pyTrunc_nonneg {q : ℚ} (h : 0 ≤ q) : 0 ≤ pyTrunc q := by
  rw [pyTrunc_of_nonneg h]; exact Int.floor_nonneg.mpr h

lemma modeFactors_cur_pos (m : String) : 0 < (modeFactors m).2.1 := by
  unfold modeFactors; split_ifs <;> norm_num

lemma modeFactors_regen_pos (m : String) : 0 < (modeFactors m).2.2 := by
  unfold modeFactors; split_ifs <;> norm_num

lemma stepSpeed_nonneg (d : DriveState) (i : DriveInput) : 0 ≤ stepSpeed d i :=
  mul_nonneg (le_max_left 0 _) (by norm_num)

lemma stepCurrent_nonneg (d : DriveState) (i : DriveInput) (ht : 0 ≤ i.throttle) :
    0 ≤ stepCurrent d i := by
  unfold stepCurrent
  have h1 : (0:ℚ) ≤ i.throttle / 100 * 60.0 := by positivity
  have h2 : (0:ℚ) ≤ max 0 (stepSpeed d i / 20.0) * 2.0 :=
    mul_nonneg (le_max_left 0 _) (by norm_num)
  exact mul_nonneg (by linarith) (le_of_lt (modeFactors_cur_pos _))

lemma stepSocDelta_nonneg (d : DriveState) (i : DriveInput)
    (ht : 0 ≤ i.throttle) (hdt : 0 ≤ i.dt) : 0 ≤ stepSocDelta d i := by
  unfold stepSocDelta
  have hc := stepCurrent_nonneg d i ht
  have hbase : (0:ℚ) ≤ stepCurrent d i * i.dt * 0.0005 := by positivity
  have hrf := modeFactors_regen_pos (capMode i)
  split_ifs
  · exact mul_nonneg hbase (by positivity)
  · exact hbase

lemma simulate_drive_step_inv (d : DriveState) (i : DriveInput)
    (hi : ValidInput i) (hd : DriveInv d) : DriveInv (simulate_drive_step d i).1 := by
  obtain ⟨ht0, ht1, hb0, hb1, hdt⟩ := hi
  obtain ⟨hs, hsoc5, hsoc100, hc0, hc1⟩ := hd
  have hδ := stepSocDelta_nonneg d i ht0 (le_of_lt hdt)
  have htr : 0 ≤ pyTrunc (|stepCurrent d i| * i.dt / 100.0) :=
    pyTrunc_nonneg (by positivity)
  simp only [simulate_drive_step, DriveInv]
  refine ⟨stepSpeed_nonneg d i, ?_, ?_, ?_, ?_⟩
  · unfold stepSoc; exact le_max_of_le_left (by norm_num)
  · unfold stepSoc; exact max_le (by norm_num) (by linarith)
  · unfold stepCycles; exact le_min (by norm_num) (by omega)
  · unfold stepCycles; exact min_le_left _ _

/-- C1: for throttle and brake percentages in [0, 100], positive step
duration and any mode string, one `simulate_drive_step` call — and, by
induction, any finite sequence of calls on one session — preserves the
clamp invariant: speed ≥ 0, state of charge in [5, 100] and cycle count
in [0, 1000]. -/
theorem drive_invariant_preserved (s : Session) (inps : List DriveInput)
    (hin : ∀ i ∈ inps, ValidInput i) (h0 : DriveInv s.drive) :
    DriveInv (runDrive s inps).drive := by
  induction inps generalizing s with
  | nil => exact h0
  | cons i is ih =>
    exact ih (sessionStep s i) (fun j hj => hin j (List.mem_cons_of_mem i hj))
      (simulate_drive_step_inv s.drive i (hin i (List.mem_cons_self i is)) h0)

/-- C1 witness: the invariant theorem applied to the fresh session and the
single Sport step `throttle=100, brake=0, dt=1`. -/
theorem drive_invariant_preserved_witness :
    (∀ i ∈ [({ now := 0, throttle := 100, brake := 0, dt := 1, mode := "Sport" } : DriveInput)],
        ValidInput i) ∧
      DriveInv initDrive ∧
      DriveInv (runDrive { drive := initDrive, log := [] }
        [{ now := 0, throttle := 100, brake := 0, dt := 1, mode := "Sport" }]).drive :=
  ⟨by decide, by decide,
    drive_invariant_preserved { drive := initDrive, log := [] } _ (by decide) (by decide)⟩

lemma pushLog_eq_takeLast (log : List DriveRow) (r : DriveRow) :
    pushLog log r = takeLast 2000 (log ++ [r]) := by
  simp only [pushLog, takeLast]
  split_ifs with hlen
  · rfl
  · simp only [not_lt] at hlen
    rw [Nat.sub_eq_zero_of_le hlen, List.drop_zero]

lemma takeLast_length_le (l : List DriveRow) : (takeLast 2000 l).length ≤ 2000 := by
  unfold takeLast
  rw [List.length_drop]
  omega

lemma takeLast_append_takeLast (a b : List DriveRow) :
    takeLast 2000 (takeLast 2000 a ++ b) = takeLast 2000 (a ++ b) := by
  unfold takeLast
  rcases le_or_lt a.length 2000 with h | h
  · rw [Nat.sub_eq_zero_of_le h, List.drop_zero]
  · rw [← List.drop_append_of_le_length (by omega : a.length - 2000 ≤ a.length),
        List.drop_drop]
    have he : a.length - 2000 + ((List.drop (a.length - 2000) (a ++ b)).length - 2000)
        = (a ++ b).length - 2000 := by
      rw [List.length_drop, List.length_append]
      omega
    rw [he]

lemma runDrive_log (inps : List DriveInput) (d : DriveState) (log : List DriveRow)
    (h : log.length ≤ 2000) :
    (runDrive { drive := d, log := log } inps).log =
      takeLast 2000 (log ++ driveRows d inps) := by
  induction inps generalizing d log with
  | nil =>
    simp only [runDrive, List.foldl_nil, driveRows, List.append_nil]
    unfold takeLast
    rw [Nat.sub_eq_zero_of_le h, List.drop_zero]
  | cons i is ih =>
    calc (runDrive { drive := d, log := log } (i :: is)).log
        = (runDrive { drive := (simulate_drive_step d i).1,
                      log := pushLog log (simulate_drive_step d i).2 } is).log := rfl
      _ = takeLast 2000 (pushLog log (simulate_drive_step d i).2 ++
            driveRows (simulate_drive_step d i).1 is) :=
          ih _ _ (by rw [pushLog_eq_takeLast log _]; exact takeLast_length_le _)
      _ = takeLast 2000 (takeLast 2000 (log ++ [(simulate_drive_step d i).2]) ++
            driveRows (simulate_drive_step d i).1 is) := by
          rw [pushLog_eq_takeLast log _]
      _ = takeLast 2000 ((log ++ [(simulate_drive_step d i).2]) ++
            driveRows (simulate_drive_step d i).1 is) := takeLast_append_takeLast _ _
      _ = takeLast 2000 (log ++ driveRows d (i :: is)) := by
          rw [driveRows, List.append_assoc, List.singleton_append]

lemma driveRows_length (d : DriveState) (inps : List DriveInput) :
    (driveRows d inps).length = inps.length := by
  induction inps generalizing d with
  | nil => rfl
  | cons i is ih => simp [driveRows, ih]

/-- C4: after N > 2000 `simulate_drive_step` calls on one session starting
from an empty log, the drive log has length exactly 2000 and equals the
most recent 2000 appended rows in their original append order (the literal
2000 in the source is a fixed capacity). -/
theorem drive_log_ring_bound (d : DriveState) (inps : List DriveInput)
    (h : 2000 < inps.length) :
    (runDrive { drive := d, log := [] } inps).log.length = 2000 ∧
      (runDrive { drive := d, log := [] } inps).log =
        (driveRows d inps).drop ((driveRows d inps).length - 2000) := by
  have hlog := runDrive_log inps d [] (by simp)
  rw [List.nil_append] at hlog
  constructor
  · rw [hlog]
    unfold takeLast
    rw [List.length_drop, driveRows_length]
    omega
  · exact hlog

/-- C4 witness: the ring bound applied to 2001 identical idle steps. -/
theorem drive_log_ring_bound_witness :
    2000 < (List.replicate 2001
        ({ now := 0, throttle := 0, brake := 0, dt := 1, mode := "Normal" } : DriveInput)).length ∧
      (runDrive { drive := initDrive, log := [] }
        (List.replicate 2001 { now := 0, throttle := 0, brake := 0, dt := 1, mode := "Normal" })).log.length = 2000 :=
  ⟨by rw [List.length_replicate]; omega,
    (drive_log_ring_bound initDrive _ (by rw [List.length_replicate]; omega)).1⟩

lemma lowerNat_congr_upperNat {a b : ℕ} (h : lowerNat a = lowerNat b) :
    upperNat a = upperNat b := by
  unfold lowerNat at h
  unfold upperNat
  split_ifs at * <;> omega

lemma map_lower_ofNat_congr : ∀ (cs cs' : List Char),
    cs.map (fun d => lowerNat d.toNat) = cs'.map (fun d => lowerNat d.toNat) →
    cs.map (fun d => Char.ofNat (lowerNat d.toNat)) =
      cs'.map (fun d => Char.ofNat (lowerNat d.toNat))
  | [], [], _ => rfl
  | [], _ :: _, h => by simp at h
  | _ :: _, [], h => by simp at h
  | c :: cs, c' :: cs', h => by
    simp only [List.map_cons, List.cons.injEq] at h ⊢
    exact ⟨congrArg Char.ofNat h.1, map_lower_ofNat_congr cs cs' h.2⟩

lemma caseFold_capitalize {m m' : String} (h : caseFold m = caseFold m') :
    pyCapitalize m = pyCapitalize m' := by
  obtain ⟨l⟩ := m
  obtain ⟨l'⟩ := m'
  unfold caseFold at h
  unfold pyCapitalize
  cases l with
  | nil =>
    cases l' with
    | nil => rfl
    | cons c' cs' => simp at h
  | cons c cs =>
    cases l' with
    | nil => simp at h
    | cons c' cs' =>
      simp only [List.map_cons, List.cons.injEq] at h
      dsimp only
      rw [lowerNat_congr_upperNat h.1, map_lower_ofNat_congr cs cs' h.2]

/-- C5 counterexample: with the unrecognized mode string "turbo" the source
treats the step as Normal but records "Turbo" — the capitalized input, not
one of the five variant names — in the log entry's mode field, so the claim
that the entry records the resolved mode name fails. -/
theorem mode_resolution_cex :
    (simulate_drive_step initDrive
        { now := 0, throttle := 100, brake := 0, dt := 1, mode := "turbo" }).2.mode = "Turbo" ∧
      ("Turbo" : String) ∉ (["Normal", "Eco", "Sport", "Snow", "Regen"] : List String) := by
  constructor
  · decide
  · decide

/-- C5 amended: the mode argument is resolved case-insensitively — the step
depends on the mode string only through its ASCII case-folded content — any
unrecognized mode gets Normal's multipliers (accel ×1.0, current_factor 1.0,
regen_factor 1.0), and the log entry records `mode.capitalize()`, which for
unrecognized inputs is the capitalized input string rather than a variant
name. -/
theorem mode_resolution (d : DriveState) (i : DriveInput) :
    (simulate_drive_step d i).2.mode = pyCapitalize i.mode ∧
      (pyCapitalize i.mode ∉ (["Eco", "Sport", "Snow", "Regen"] : List String) →
        modeFactors (capMode i) = (1, 1, 1)) ∧
      ∀ m' : String, caseFold i.mode = caseFold m' →
        simulate_drive_step d i = simulate_drive_step d { i with mode := m' } := by
  refine ⟨rfl, ?_, ?_⟩
  · intro hnot
    simp only [List.mem_cons, List.not_mem_nil, or_false, not_or] at hnot
    obtain ⟨h1, h2, h3, h4⟩ := hnot
    unfold modeFactors capMode
    rw [if_neg h1, if_neg h2, if_neg h3, if_neg h4]
    norm_num
  · intro m' hm
    have hcap : pyCapitalize i.mode = pyCapitalize m' := caseFold_capitalize hm
    obtain ⟨n, t, b, dt', mo⟩ := i
    dsimp only at hcap ⊢
    simp only [simulate_drive_step, stepSpeed, stepAccel, stepDecel, stepCurrent,
      stepSocDelta, stepSoc, stepTemp, stepCycles, stepRpm, capMode, hcap]

/-- C5 witness: the amended theorem applied to the case variants "ECO" and
"eco" of the Eco mode name. -/
theorem mode_resolution_witness :
    caseFold "ECO" = caseFold "eco" ∧
      simulate_drive_step initDrive { now := 0, throttle := 50, brake := 0, dt := 1, mode := "ECO" } =
        simulate_drive_step initDrive { now := 0, throttle := 50, brake := 0, dt := 1, mode := "eco" } :=
  ⟨by decide, (mode_resolution initDrive _).2.2 "eco" (by decide)⟩

/-- C10: in the derived ADAS view of the ECU snapshot, `collision_warn` is
true exactly when speed > 120; since `obstacle_distance = max(5, 80 − speed×0.5)`
drops below 20 only for speed > 120, the `speed > 40` conjunct is subsumed
and no warning is raised for any speed in (40, 120]. -/
theorem collision_warn_iff_speed_gt_120 (sin15 : ℕ → ℚ) (d : DriveState) (idx : ℕ) :
    (compute_ecu_snapshot sin15 d idx).adas.collision_warn = true ↔ 120 < d.speed := by
  simp only [compute_ecu_snapshot, Bool.and_eq_true, decide_eq_true_eq, max_lt_iff]
  constructor
  · rintro ⟨-, -, h⟩; linarith
  · intro h; refine ⟨by linarith, by norm_num, by linarith⟩

/-- C8 counterexample: at speed 92 the source computes signal strength 4
(truncating `int(...)`), while the claimed nearest-integer rounding formula
gives 3, so the claim fails at speed 92. -/
theorem signal_strength_claim_cex :
    (compute_ecu_snapshot (fun _ => 0) { initDrive with speed := 92 } 0).tcu.signal_strength = 4 ∧
      signalStrengthClaim 92 = 3 := by
  constructor
  · simp only [compute_ecu_snapshot]
    norm_num [pyTrunc]
  · unfold signalStrengthClaim
    norm_num [round_eq]

/-- C8 amended: the Telematics signal strength equals
`max(1, 5 − ⌊|speed − 60|/60 × 3⌋)` — the fractional part is truncated
(floor of the non-negative argument), not rounded to the nearest integer. -/
theorem signal_strength_eq_floor_formula (sin15 : ℕ → ℚ) (d : DriveState) (idx : ℕ) :
    (compute_ecu_snapshot sin15 d idx).tcu.signal_strength =
      max 1 (5 - ⌊|d.speed - 60| / 60 * 3⌋) := by
  simp only [compute_ecu_snapshot]
  rw [pyTrunc_of_nonneg (by positivity)]

/-- C6 counterexample: a frame whose only column is a parseable `timestamp`
is ingested successfully by `read_can_csv` even though the voltage, current,
temperature, soc and cycle columns are all absent, so the claim that
ingestion fails whenever a required column is missing is false. -/
theorem read_can_csv_missing_columns_cex :
    read_can_csv { cols := ["timestamp"], tsCells := [some 0] } = .ok [0] ∧
      "voltage" ∉ (["timestamp"] : List String) := by
  constructor
  · rfl
  · decide

/-- C6 amended: `read_can_csv` succeeds exactly when a `timestamp` column is
present and every timestamp cell parses; it never inspects the
voltage/current/temperature/soc/cycle columns, and a timestamp failure
rejects the whole frame (no partial-row recovery). -/
theorem read_can_csv_ok_iff (f : CsvFrame) :
    (∃ ts, read_can_csv f = .ok ts) ↔
      ("timestamp" ∈ f.cols ∧ ∀ c ∈ f.tsCells, c.isSome) := by
  unfold read_can_csv
  split_ifs with h1 h2
  · simp only [h1, true_and]
    constructor
    · intro _ c hc; exact List.all_eq_true.mp h2 c hc
    · intro _; exact ⟨_, rfl⟩
  · simp only [h1, true_and]
    constructor
    · rintro ⟨ts, hts⟩; exact absurd hts (by simp)
    · intro hall; exact absurd (List.all_eq_true.mpr fun c hc => hall c hc) h2
  · constructor
    · rintro ⟨ts, hts⟩; exact absurd hts (by simp)
    · rintro ⟨hc, -⟩; exact absurd hc h1

lemma riskClamp_bounds (x : ℚ) :
    0 ≤ halfEvenRound (min (max x 0.0) 100.0) ∧
      halfEvenRound (min (max x 0.0) 100.0) ≤ 100 := by
  have h0 : ((0 : ℤ) : ℚ) ≤ min (max x 0.0) 100.0 :=
    le_min (le_max_of_le_right (by norm_num)) (by norm_num)
  have h1 : min (max x 0.0) 100.0 ≤ ((100 : ℤ) : ℚ) :=
    le_trans (min_le_right _ _) (by norm_num)
  exact halfEvenRound_bounds h0 h1

/-- C2: `compute_risk_score` returns the `None` sentinel, without raising,
when the sample frame is absent (`df is None`) or empty, and for every
non-empty finite sample sequence it returns an integer score in [0, 100]
together with the breakdown of sub-scores. -/
theorem compute_risk_score_spec :
    compute_risk_score none = none ∧
      compute_risk_score (some []) = none ∧
      ∀ df : List TelemetrySample, df ≠ [] →
        ∃ s b, compute_risk_score (some df) = some (s, b) ∧ 0 ≤ s ∧ s ≤ 100 := by
  refine ⟨rfl, rfl, ?_⟩
  intro df hdf
  simp only [compute_risk_score, if_neg hdf]
  exact ⟨_, _, rfl, (riskClamp_bounds _).1, (riskClamp_bounds _).2⟩

/-- C2 witness: the contract applied to the one-sample window. -/
theorem compute_risk_score_spec_witness :
    ([zeroSample] : List TelemetrySample) ≠ [] ∧
      ∃ s b, compute_risk_score (some [zeroSample]) = some (s, b) ∧ 0 ≤ s ∧ s ≤ 100 :=
  ⟨by simp, compute_risk_score_spec.2.2 [zeroSample] (by simp)⟩

lemma pairwise_head_lt_getLast (l : List TelemetrySample)
    (hp : l.Pairwise (fun a b => tsSec a < tsSec b)) (h2 : 2 ≤ l.length) :
    tsSec (l.head?.getD zeroSample) < tsSec (l.getLast?.getD zeroSample) := by
  rcases l with _ | ⟨a, _ | ⟨b, t⟩⟩
  · simp at h2
  · simp at h2
  · have hne : (b :: t) ≠ [] := by simp
    have hlast : (a :: b :: t).getLast? = some ((b :: t).getLast hne) := by
      rw [List.getLast?_cons_cons, List.getLast?_eq_getLast_of_ne_nil hne]
    have hmem : (b :: t).getLast hne ∈ b :: t := List.getLast_mem hne
    have hrel := (List.pairwise_cons.mp hp).1 _ hmem
    simpa [hlast] using hrel

lemma dtHours_pos_of_chronInc (w : List TelemetrySample) (hp : ChronInc w) :
    0 < dtHours (tail12 w) := by
  unfold dtHours
  split_ifs with hlen
  · have hp' : (tail12 w).Pairwise (fun a b => tsSec a < tsSec b) :=
      hp.sublist (List.drop_sublist _ _)
    have hlt := pairwise_head_lt_getLast (tail12 w) hp' hlen
    have h36 : (0:ℚ) < 3600 := by norm_num
    have hcast : (0:ℚ) < ((tsSec ((tail12 w).getLast?.getD zeroSample)
        - tsSec ((tail12 w).head?.getD zeroSample) : ℤ) : ℚ) := by
      exact_mod_cast Int.sub_pos.mpr hlt
    exact div_pos hcast h36
  · norm_num

/-- C7 counterexample: the two-sample window whose samples share one
timestamp is non-empty, yet the elapsed-hours denominator of the
`voltage_drop_rate` computation is 0 there — the 1-hour floor applies only
when the window has fewer than 2 samples — so "never divides by zero" fails
for this window. -/
theorem dtHours_zero_cex :
    ([⟨0, 405, 0, 0, 0, 0⟩, ⟨0, 400, 0, 0, 0, 0⟩] : List TelemetrySample) ≠ [] ∧
      dtHours (tail12 [⟨0, 405, 0, 0, 0, 0⟩, ⟨0, 400, 0, 0, 0, 0⟩]) = 0 := by
  constructor
  · simp
  · norm_num [dtHours, tail12, tsSec, List.getLast?_cons_cons]

/-- C7 amended: the elapsed-hours denominator is floored at 1 only when the
window has fewer than 2 samples; it is nonzero (indeed positive) for every
window with strictly increasing timestamps, and a non-negative (flat or
rising) voltage slope contributes zero to the drop rate. -/
theorem voltage_drop_rate_well_defined (w : List TelemetrySample) :
    (w.length < 2 → dtHours (tail12 w) = 1) ∧
      (ChronInc w → 0 < dtHours (tail12 w)) ∧
      (0 ≤ voltSlope (tail12 w) → voltageDropRate (tail12 w) = 0) := by
  refine ⟨?_, dtHours_pos_of_chronInc w, ?_⟩
  · intro hlen
    unfold dtHours
    rw [if_neg]
    unfold tail12
    rw [List.length_drop]
    omega
  · intro hs
    unfold voltageDropRate
    rw [if_neg (not_lt.mpr hs)]

/-- C7 witness: the amended theorem applied to a singleton window (floored
denominator, flat slope) and to a chronological two-sample window. -/
theorem voltage_drop_rate_well_defined_witness :
    (([⟨0, 405, 0, 0, 0, 0⟩] : List TelemetrySample).length < 2 ∧
        dtHours (tail12 [⟨0, 405, 0, 0, 0, 0⟩]) = 1) ∧
      (ChronInc [⟨0, 405, 0, 0, 0, 0⟩, ⟨3600, 400, 0, 0, 0, 0⟩] ∧
        0 < dtHours (tail12 [⟨0, 405, 0, 0, 0, 0⟩, ⟨3600, 400, 0, 0, 0, 0⟩])) ∧
      (0 ≤ voltSlope (tail12 ([⟨0, 405, 0, 0, 0, 0⟩] : List TelemetrySample)) ∧
        voltageDropRate (tail12 ([⟨0, 405, 0, 0, 0, 0⟩] : List TelemetrySample)) = 0) := by
  have hslope : 0 ≤ voltSlope (tail12 ([⟨0, 405, 0, 0, 0, 0⟩] : List TelemetrySample)) := by
    norm_num [voltSlope, dtHours, tail12]
  exact ⟨⟨by decide, (voltage_drop_rate_well_defined _).1 (by decide)⟩,
    ⟨by decide, (voltage_drop_rate_well_defined _).2.1 (by decide)⟩,
    ⟨hslope, (voltage_drop_rate_well_defined _).2.2 hslope⟩⟩

lemma ecuSpeeds_closed (n : ℕ) : ecuSpeeds n = 1.224 * (n : ℚ) := by
  induction n with
  | zero => simp [ecuSpeeds]
  | succ n ih =>
    rw [ecuSpeeds, ih]
    unfold ecuStep
    dsimp only
    rw [max_eq_right (by positivity)]
    push_cast
    ring

lemma ecuReported_strict (n : ℕ) : ecuReported n < ecuReported (n + 1) := by
  have e1 : ecuSpeeds (n + 1) = 1.224 * ((n : ℚ) + 1) := by
    rw [ecuSpeeds_closed]; push_cast; ring
  have e2 : ecuSpeeds (n + 1 + 1) = 1.224 * ((n : ℚ) + 2) := by
    rw [ecuSpeeds_closed]; push_cast; ring
  unfold ecuReported roundTo
  rw [e1, e2]
  have h1 := abs_le.mp (abs_halfEvenRound_sub_le (1.224 * ((n : ℚ) + 1) * 10 ^ 2))
  have h2 := abs_le.mp (abs_halfEvenRound_sub_le (1.224 * ((n : ℚ) + 2) * 10 ^ 2))
  have key : ((halfEvenRound (1.224 * ((n : ℚ) + 1) * 10 ^ 2) : ℤ) : ℚ) <
      ((halfEvenRound (1.224 * ((n : ℚ) + 2) * 10 ^ 2) : ℤ) : ℚ) := by
    nlinarith [h1.1, h1.2, h2.1, h2.2]
  exact (div_lt_div_iff_of_pos_right (by norm_num : (0:ℚ) < 10 ^ 2)).mpr key

/-- C9 amended: from rest, each `{throttle: 100, brake: 0}` command makes
the toy ECU's reported (2-decimal rounded) speed strictly larger than the
previous report, at every step and indefinitely — the linear model with
constant deceleration 0.1 never reaches a terminal steady state. -/
theorem ecu_reported_strictly_increasing (n : ℕ) :
    ecuReported n < ecuReported (n + 1) :=
  ecuReported_strict n

/-- C9 counterexample: the claimed terminal velocity-like steady state never
occurs: there is no point after which the reported speed stops changing,
since the internal speed grows by exactly 1.224 km/h per full-throttle
command forever. -/
theorem ecu_no_steady_state_cex :
    ¬ ∃ N : ℕ, (∀ n, n < N → ecuReported n < ecuReported (n + 1)) ∧
        (∀ n, N ≤ n → ecuReported (n + 1) = ecuReported n) := by
  rintro ⟨N, -, hsteady⟩
  exact absurd (hsteady N le_rfl) (ne_of_gt (ecuReported_strict N))

/-- C3 counterexample: two `simulate(hours=6, freq_minutes=5, seed=99)` calls
observe different wall clocks (`datetime.now()`), here 0 and 1 seconds, and
produce different sequences — every timestamp field is shifted — so the
sequences are not identical bit-for-bit in every field. -/
theorem simulate_different_now_cex :
    simulate 6 5 (0 : ℚ) (fun _ => 0) ≠ simulate 6 5 1 (fun _ => 0) := by
  intro h
  have hts := congrArg (fun l => (l.map (·.timestamp)).head?) h
  have hp : (max 2 (pyTrunc ((6 : ℚ) * 60 / 5))).toNat = 72 := by
    rw [pyTrunc_of_nonneg (by norm_num)]
    norm_num
    decide
  simp only [simulate, hp, List.map_map, List.head?_map] at hts
  rw [show (72 : ℕ) = 71 + 1 from rfl, List.range_succ_eq_map] at hts
  simp only [List.head?_cons, Option.map_some', Option.some.injEq] at hts
  norm_num at hts

/-- C3 amended: with a supplied seed the numpy draw stream is fixed, and two
`simulate` calls with the same hours, freq_minutes and draw stream agree
bit-for-bit on every field except the timestamp: the mapped value fields
(voltage, current, temperature, soc, cycles) are identical regardless of the
wall clock observed by each call. -/
theorem simulate_value_fields_deterministic (hours freq now₁ now₂ : ℚ) (draws : ℕ → ℚ) :
    (simulate hours freq now₁ draws).map valueFields =
      (simulate hours freq now₂ draws).map valueFields := by
  simp only [simulate, List.map_map]
  rfl

end SDV
